import Mathlib

/-!
Shallow embedding of the `library_api` repository: the data-access layer
(`app/crud/book.py`, `app/crud/author.py`), the persistence model
(`app/models/book.py`, `app/models/author.py`) and the validation schemas
(`app/schemas/book.py`, `app/schemas/author.py`).

The relational store is modelled as an explicit state (`DB`): the list of
author rows and book rows in primary-key insertion order, together with the
autoincrement counters and the creation clock that the persistence layer
uses for the server-assigned `id` / `created_at` columns.  SQLAlchemy query
combinators map to list operations: `offset(skip).limit(limit)` to
`drop`/`take`, `filter(Model.id == x).first()` to `List.find?`, `ilike` to
an executable SQL LIKE matcher over lowercased characters, and
`session.delete` of the row found by primary key to `List.eraseP`.
-/

/-- A stored row of the `books` table (`app/models/book.py`): `id` is the
integer primary key, `title` is non-null, `author_id` is the foreign key to
`authors.id`, `description`, `year` and `isbn` are nullable columns, and
`created_at` is the server-assigned creation timestamp. -/
structure BookRec where
  id : Int
  title : String
  author_id : Int
  description : Option String
  year : Option Int
  isbn : Option String
  created_at : Nat
deriving DecidableEq, Repr

/-- A stored row of the `authors` table (`app/models/author.py`): `id` is
the integer primary key, `name` is non-null, `bio` and `birth_date` are
nullable (the date kept as its validated ISO string), and `created_at` is
the server-assigned creation timestamp. -/
structure AuthorRec where
  id : Int
  name : String
  bio : Option String
  birth_date : Option String
  created_at : Nat
deriving DecidableEq, Repr

/-- The relational store: both tables in primary-key insertion order, the
autoincrement counters for the two primary keys, and the current value of
the server clock (`func.now()`), which stamps `created_at` on insert. -/
structure DB where
  authors : List AuthorRec
  books : List BookRec
  nextAuthorId : Int
  nextBookId : Int
  now : Nat
deriving DecidableEq, Repr

/-- Payload of `AuthorCreate` (`app/schemas/author.py`): required `name`,
optional `bio` and `birth_date`.  There is no `id` or `created_at` field:
the caller cannot supply either. -/
structure AuthorCreate where
  name : String
  bio : Option String
  birth_date : Option String
deriving DecidableEq, Repr

/-- Payload of `BookCreate` (`app/schemas/book.py`): required `title` and
`author_id`, optional `description`, `year` and `isbn`.  There is no `id`
or `created_at` field: the caller cannot supply either. -/
structure BookCreate where
  title : String
  author_id : Int
  description : Option String
  year : Option Int
  isbn : Option String
deriving DecidableEq, Repr

/-- Payload of `BookUpdate` (`app/schemas/book.py`): every field is
`Optional[...] = None`, so each can be absent, present with a value, or
present with an explicit JSON `null`.  The outer `Option` is presence:
`none` means the field was not set in the request (pydantic
`dict(exclude_unset=True)` drops it), `some v` means the field was present
with value `v`, where `v = none` is an explicit `null` — representable
even for the `title`/`author_id` columns that the store declares
non-nullable. -/
structure BookUpdate where
  title : Option (Option String)
  author_id : Option (Option Int)
  description : Option (Option String)
  year : Option (Option Int)
  isbn : Option (Option String)
deriving DecidableEq, Repr

/-- A primitive JSON value arriving at the validation boundary. -/
inductive JVal where
  | jnull : JVal
  | jstr : String → JVal
  | jint : Int → JVal
  | jbool : Bool → JVal
deriving DecidableEq, Repr

/-- Raw request body for `POST /authors` before validation: each schema
field either absent (`none`) or present with a primitive JSON value. -/
structure RawAuthorInput where
  name : Option JVal
  bio : Option JVal
  birth_date : Option JVal
deriving DecidableEq, Repr

/-- Raw request body for `POST /books` before validation. -/
structure RawBookInput where
  title : Option JVal
  author_id : Option JVal
  description : Option JVal
  year : Option JVal
  isbn : Option JVal
deriving DecidableEq, Repr

/-- Decoding of a JSON value at a `str`-typed pydantic field: only a JSON
string is accepted (any string, including the empty one — the schemas in
`app/schemas` declare plain `str` with no length constraint). -/
def decodeStr : JVal → Option String
  | JVal.jstr s => some s
  | _ => none

/-- Value of a digit run read as a decimal number. -/
def digitsToNat (ds : List Char) : Nat :=
  ds.foldl (fun acc c => acc * 10 + (c.toNat - 48)) 0

/-- Parsing of a string as a decimal integer (optional sign followed by at
least one digit) — the numeric strings pydantic's lax `int` validation
coerces. -/
def parseIntString (s : String) : Option Int :=
  match s.data with
  | [] => none
  | '-' :: ds =>
    if !ds.isEmpty && ds.all Char.isDigit then some (-(digitsToNat ds : Int)) else none
  | '+' :: ds =>
    if !ds.isEmpty && ds.all Char.isDigit then some (digitsToNat ds : Int) else none
  | ds =>
    if ds.all Char.isDigit then some (digitsToNat ds : Int) else none

/-- Decoding of a JSON value at an `int`-typed pydantic field.  The app
runs pydantic v2 (its schemas use the v2 `from_attributes` config) in the
default lax mode, which accepts an integer and also coerces an
integer-valued numeric string; `null` and booleans are rejected. -/
def decodeInt : JVal → Option Int
  | JVal.jint n => some n
  | JVal.jstr s => parseIntString s
  | _ => none

/-- Gregorian leap-year test, as used by Python's `datetime.date`. -/
def isLeapYear (y : Nat) : Bool :=
  (y % 4 == 0 && y % 100 != 0) || (y % 400 == 0)

/-- Number of days in month `m` of year `y`. -/
def daysInMonth (y m : Nat) : Nat :=
  if m == 2 then (if isLeapYear y then 29 else 28)
  else if m == 4 || m == 6 || m == 9 || m == 11 then 30
  else 31

/-- Whether a string is a calendar date in ISO `YYYY-MM-DD` form, with a
valid month, a valid day for that month and year, and year at least 1 —
the values Python's `date.fromisoformat` accepts. -/
def isIsoDate (s : String) : Bool :=
  match s.data with
  | [y1, y2, y3, y4, sep1, m1, m2, sep2, d1, d2] =>
    (sep1 == '-') && (sep2 == '-') &&
    ([y1, y2, y3, y4, m1, m2, d1, d2].all Char.isDigit) &&
    (let y := (y1.toNat - 48) * 1000 + (y2.toNat - 48) * 100 +
              (y3.toNat - 48) * 10 + (y4.toNat - 48)
     let m := (m1.toNat - 48) * 10 + (m2.toNat - 48)
     let d := (d1.toNat - 48) * 10 + (d2.toNat - 48)
     (1 ≤ y) && (1 ≤ m) && (m ≤ 12) && (1 ≤ d) && (d ≤ daysInMonth y m))
  | _ => false

/-- Decoding of a JSON value at a `date`-typed pydantic field: an ISO date
string, kept as that string. -/
def decodeDate : JVal → Option String
  | JVal.jstr s => if isIsoDate s then some s else none
  | _ => none

/-- Decoding of an `Optional[...]` pydantic field: an absent field takes
its default `None`, an explicit JSON `null` is accepted as `None`, and any
other value must decode at the underlying type. -/
def decodeOpt (f : JVal → Option α) : Option JVal → Option (Option α)
  | none => some none
  | some JVal.jnull => some none
  | some v => (f v).map some

/-- Validation of a raw request body against the `AuthorCreate` schema
(`app/schemas/author.py`): `name` must be present and a string; `bio` and
`birth_date` are optional.  Returns `none` when validation rejects the
request. -/
def validateAuthorCreate (r : RawAuthorInput) : Option AuthorCreate :=
  match r.name with
  | some (JVal.jstr s) =>
    match decodeOpt decodeStr r.bio, decodeOpt decodeDate r.birth_date with
    | some bio, some bd => some { name := s, bio := bio, birth_date := bd }
    | _, _ => none
  | _ => none

/-- Validation of a raw request body against the `BookCreate` schema
(`app/schemas/book.py`): `title` must be present and a string, `author_id`
present and a value that `int` validation accepts (an integer, or a
numeric string coerced by pydantic's lax mode); `description`, `year` and
`isbn` are optional. -/
def validateBookCreate (r : RawBookInput) : Option BookCreate :=
  match r.title with
  | some (JVal.jstr t) =>
    match r.author_id with
    | some v =>
      match decodeInt v with
      | some aid =>
        match decodeOpt decodeStr r.description, decodeOpt decodeInt r.year,
              decodeOpt decodeStr r.isbn with
        | some d, some y, some i =>
          some { title := t, author_id := aid, description := d, year := y, isbn := i }
        | _, _, _ => none
      | none => none
    | none => none
  | _ => none

/-- Matching of a SQL LIKE `%` wildcard: `likeStar f s` holds when the
rest of the pattern (`f`) matches some suffix of `s`, i.e. `%` absorbs any
run of characters. -/
def likeStar (f : List Char → Bool) : List Char → Bool
  | [] => f []
  | c :: s => f (c :: s) || likeStar f s

/-- Executable semantics of SQL `LIKE`, case-insensitive as `ilike` is:
`%` matches any run of characters, `_` matches any single character, any
other pattern character matches a single character up to lowercasing. -/
def likeMatch : List Char → List Char → Bool
  | [], s => s.isEmpty
  | p :: ps, s =>
    if p == '%' then likeStar (likeMatch ps) s
    else
      match s with
      | [] => false
      | c :: s' => ((p == '_') || (p.toLower == c.toLower)) && likeMatch ps s'

/-- What the specification calls a case-insensitive substring: the
lowercased characters of `frag` occur contiguously inside the lowercased
characters of `title`. -/
def ciSubstring (frag title : String) : Prop :=
  frag.data.map Char.toLower <:+: title.data.map Char.toLower

instance ciSubstringDecidable (frag title : String) : Decidable (ciSubstring frag title) :=
  inferInstanceAs (Decidable (frag.data.map Char.toLower <:+: title.data.map Char.toLower))

/-- A LIKE fragment with no occurrence of the `%` or `_` wildcards. -/
def NoWildcard (frag : List Char) : Prop :=
  ∀ c ∈ frag, c ≠ '%' ∧ c ≠ '_'

instance noWildcardDecidable (frag : List Char) : Decidable (NoWildcard frag) :=
  List.decidableBAll _ frag

/-- The storage-level integrity failures the data-access layer can hit on
`commit`: violating the unique index on `books.isbn`, or writing `NULL`
into a column declared `nullable=False`. -/
inductive CrudError where
  | uniquenessViolation : CrudError
  | notNullViolation : CrudError
deriving DecidableEq, Repr

/-- `get_books` (`app/crud/book.py`): `db.query(Book).offset(skip).limit(limit).all()`. -/
def get_books (db : DB) (skip : Nat) (limit : Nat) : List BookRec :=
  (db.books.drop skip).take limit

/-- `get_books` with the defaulted arguments `skip=0`, `limit=100`. -/
def get_books_default (db : DB) : List BookRec :=
  get_books db 0 100

/-- `get_book` (`app/crud/book.py`):
`db.query(Book).filter(Book.id == book_id).first()`; `none` is the absent
sentinel (Python `None`). -/
def get_book (db : DB) (book_id : Int) : Option BookRec :=
  db.books.find? (fun b => b.id == book_id)

/-- Row insertion performed by `create_book`'s `add`/`commit`/`refresh`:
the store assigns the next primary key and stamps `created_at` with the
server clock; no other field comes from anywhere but the input. -/
def insertBook (db : DB) (inp : BookCreate) : BookRec × DB :=
  let b : BookRec :=
    { id := db.nextBookId, title := inp.title, author_id := inp.author_id,
      description := inp.description, year := inp.year, isbn := inp.isbn,
      created_at := db.now }
  (b, { db with books := db.books ++ [b], nextBookId := db.nextBookId + 1 })

/-- `create_book` (`app/crud/book.py`): inserts the validated payload and
commits.  The commit enforces the unique index on `books.isbn`
(`app/models/book.py`): a non-null `isbn` equal to a stored one aborts the
insert with a uniqueness violation. -/
def create_book (db : DB) (inp : BookCreate) : Except CrudError (BookRec × DB) :=
  match inp.isbn with
  | some s =>
    if db.books.any (fun b => b.isbn == some s) then
      Except.error CrudError.uniquenessViolation
    else
      Except.ok (insertBook db inp)
  | none => Except.ok (insertBook db inp)

/-- Application of `dict(exclude_unset=True)` plus the `setattr` loop of
`update_book`: each field present in the payload overwrites the stored
column, each absent field is left alone.  This is the row the store holds
after a commit that passed its constraint checks; `update_book` rejects a
payload carrying an explicit `null` for the non-nullable `title` /
`author_id` columns before this function's value is ever stored, so the
inner `getD` for those two columns is only ever taken on a present
non-null value or not at all. -/
def applyBookUpdate (u : BookUpdate) (b : BookRec) : BookRec :=
  { b with
    title := (u.title.getD (some b.title)).getD b.title,
    author_id := (u.author_id.getD (some b.author_id)).getD b.author_id,
    description := u.description.getD b.description,
    year := u.year.getD b.year,
    isbn := u.isbn.getD b.isbn }

/-- Whether the payload writes a non-null `isbn` already held by a
different row — the conflict the unique index on `books.isbn` detects when
`commit` flushes the UPDATE. -/
def dupIsbnOnUpdate (db : DB) (book_id : Int) (u : BookUpdate) : Bool :=
  match u.isbn with
  | some (some s) => db.books.any fun x => !(x.id == book_id) && x.isbn == some s
  | _ => false

/-- `update_book` (`app/crud/book.py`): look the row up by primary key; if
absent return the sentinel and write nothing.  Otherwise mutate exactly
the set fields and `commit`: the commit enforces the table constraints of
`app/models/book.py` — `NOT NULL` on `title`/`author_id` and the unique
index on `isbn` — raising an `IntegrityError` and persisting nothing when
one is violated; on success the refreshed row is returned. -/
def update_book (db : DB) (book_id : Int) (u : BookUpdate) :
    Except CrudError (Option BookRec × DB) :=
  match get_book db book_id with
  | none => Except.ok (none, db)
  | some b =>
    if u.title = some none ∨ u.author_id = some none then
      Except.error CrudError.notNullViolation
    else if dupIsbnOnUpdate db book_id u then
      Except.error CrudError.uniquenessViolation
    else
      Except.ok (some (applyBookUpdate u b),
        { db with
          books := db.books.map fun x => if x.id == book_id then applyBookUpdate u x else x })

/-- `delete_book` (`app/crud/book.py`): look the row up by primary key; if
absent return `false` and write nothing; otherwise delete that row, commit
and return `true`. -/
def delete_book (db : DB) (book_id : Int) : Bool × DB :=
  match get_book db book_id with
  | none => (false, db)
  | some _ => (true, { db with books := db.books.eraseP (fun b => b.id == book_id) })

/-- `search_books_by_title` (`app/crud/book.py`):
`db.query(Book).filter(Book.title.ilike(f"%\x7btitle\x7d%")).all()` — the
fragment is interpolated between two `%` into the LIKE pattern. -/
def search_books_by_title (db : DB) (title : String) : List BookRec :=
  db.books.filter (fun b => likeMatch ('%' :: title.data ++ ['%']) b.title.data)

/-- `get_authors` (`app/crud/author.py`). -/
def get_authors (db : DB) (skip : Nat) (limit : Nat) : List AuthorRec :=
  (db.authors.drop skip).take limit

/-- `get_authors` with the defaulted arguments `skip=0`, `limit=100`. -/
def get_authors_default (db : DB) : List AuthorRec :=
  get_authors db 0 100

/-- `get_author_books` (`app/crud/author.py`): find the author by primary
key; if found, its `books` relationship (every book row whose `author_id`
equals the author's `id`), else the empty list. -/
def get_author_books (db : DB) (author_id : Int) : List BookRec :=
  match db.authors.find? (fun a => a.id == author_id) with
  | some a => db.books.filter (fun b => b.author_id == a.id)
  | none => []

/-- Row insertion performed by `create_author` (`app/crud/author.py`). -/
def create_author (db : DB) (inp : AuthorCreate) : AuthorRec × DB :=
  let a : AuthorRec :=
    { id := db.nextAuthorId, name := inp.name, bio := inp.bio,
      birth_date := inp.birth_date, created_at := db.now }
  (a, { db with authors := db.authors ++ [a], nextAuthorId := db.nextAuthorId + 1 })

/-- Store well-formedness maintained by the persistence layer: primary
keys are pairwise distinct and below the autoincrement counter of their
table. -/
def DB.Wf (db : DB) : Prop :=
  (db.books.map BookRec.id).Nodup ∧ (∀ b ∈ db.books, b.id < db.nextBookId) ∧
  (db.authors.map AuthorRec.id).Nodup ∧ (∀ a ∈ db.authors, a.id < db.nextAuthorId)

instance dbWfDecidable (db : DB) : Decidable db.Wf := by
  unfold DB.Wf; infer_instance

/-- The invariant of the unique index on `books.isbn`: two distinct
positions of the table never hold the same non-null `isbn`. -/
def IsbnUnique (db : DB) : Prop :=
  db.books.Pairwise (fun a b => ∀ s, a.isbn = some s → b.isbn ≠ some s)

instance isbnUniqueDecidable (db : DB) : Decidable (IsbnUnique db) := by
  unfold IsbnUnique
  exact List.instDecidablePairwise db.books

/-! ### Concrete sample data, mirroring the worked example of the spec -/

/-- The author of the spec's scenario. -/
def tolstoy : AuthorRec :=
  { id := 1, name := "Tolstoy", bio := none, birth_date := none, created_at := 0 }

/-- Book 1 of the sample store. -/
def warAndPeace : BookRec :=
  { id := 1, title := "War and Peace", author_id := 1, description := none,
    year := some 1869, isbn := some "9781234567890", created_at := 0 }

/-- Book 2 of the sample store. -/
def civilWar : BookRec :=
  { id := 2, title := "civil war", author_id := 1, description := none,
    year := none, isbn := none, created_at := 1 }

/-- Book 3 of the sample store. -/
def peaceBook : BookRec :=
  { id := 3, title := "peace", author_id := 1, description := none,
    year := none, isbn := none, created_at := 2 }

/-- Book 4 of the sample store. -/
def catBook : BookRec :=
  { id := 4, title := "cat", author_id := 1, description := none,
    year := none, isbn := none, created_at := 3 }

/-- A sample populated store. -/
def libDB : DB :=
  { authors := [tolstoy], books := [warAndPeace, civilWar, peaceBook, catBook],
    nextAuthorId := 2, nextBookId := 5, now := 9 }

/-- The freshly created, empty store. -/
def emptyDB : DB :=
  { authors := [], books := [], nextAuthorId := 1, nextBookId := 1, now := 0 }

/-- The all-absent `BookUpdate` payload (an empty request body). -/
def emptyBookUpdate : BookUpdate :=
  { title := none, author_id := none, description := none, year := none, isbn := none }

/-- A `BookUpdate` payload carrying only `year`. -/
def yearOnlyUpdate (y : Option Int) : BookUpdate :=
  { title := none, author_id := none, description := none, year := some y, isbn := none }

/-! ### Lemmas about the LIKE matcher -/

/-- A `%` wildcard matches when the rest of the pattern matches some
suffix of the string. -/
theorem likeStar_eq_true_iff (f : List Char → Bool) (s : List Char) :
    likeStar f s = true ↔ ∃ t, t <:+ s ∧ f t = true := by
  induction s with
  | nil => simp [likeStar]
  | cons c s ih =>
    simp only [likeStar, Bool.or_eq_true, ih]
    constructor
    · rintro (h | ⟨t, ht, hf⟩)
      · exact ⟨c :: s, List.suffix_refl _, h⟩
      · exact ⟨t, ht.trans (List.suffix_cons c s), hf⟩
    · rintro ⟨t, ht, hf⟩
      rcases List.suffix_cons_iff.mp ht with h | h
      · subst h; exact Or.inl hf
      · exact Or.inr ⟨t, h, hf⟩

/-- Unfolding of the matcher at a leading `%`. -/
theorem likeMatch_pct (ps s : List Char) :
    likeMatch ('%' :: ps) s = likeStar (likeMatch ps) s := by
  simp [likeMatch]

/-- The pattern consisting of a single `%` matches every string. -/
theorem likeMatch_pct_nil (s : List Char) : likeMatch ['%'] s = true := by
  rw [likeMatch_pct]
  exact (likeStar_eq_true_iff _ _).mpr ⟨[], List.nil_suffix, rfl⟩

/-- A wildcard-free fragment followed by `%` matches exactly the strings
having the fragment as a case-insensitive prefix. -/
theorem likeMatch_literal (frag : List Char) (hw : NoWildcard frag) (s : List Char) :
    likeMatch (frag ++ ['%']) s = true ↔
      frag.map Char.toLower <+: s.map Char.toLower := by
  induction frag generalizing s with
  | nil =>
    simp only [List.nil_append, List.map_nil]
    exact ⟨fun _ => List.nil_prefix, fun _ => likeMatch_pct_nil s⟩
  | cons a frag ih =>
    have ha : a ≠ '%' ∧ a ≠ '_' := hw a (List.mem_cons_self a frag)
    have hw' : NoWildcard frag := fun c hc => hw c (List.mem_cons_of_mem a hc)
    cases s with
    | nil =>
      simp [likeMatch, ha.1]
    | cons c s =>
      have key := ih hw' s
      simp only [List.cons_append, likeMatch, List.append_eq, beq_iff_eq, ha.1,
        if_false, Bool.and_eq_true, Bool.or_eq_true, List.map_cons,
        List.cons_prefix_cons, key, ha.2, false_or]

/-- The pattern `%frag%` built by `search_books_by_title`, for a
wildcard-free fragment, matches exactly the strings containing the
fragment as a case-insensitive substring. -/
theorem likeMatch_wrap (frag : List Char) (hw : NoWildcard frag) (s : List Char) :
    likeMatch ('%' :: (frag ++ ['%'])) s = true ↔
      frag.map Char.toLower <:+: s.map Char.toLower := by
  rw [likeMatch_pct, likeStar_eq_true_iff]
  constructor
  · rintro ⟨t, hts, hm⟩
    have hp := (likeMatch_literal frag hw t).mp hm
    exact List.infix_iff_prefix_suffix.mpr ⟨t.map Char.toLower, hp, hts.map _⟩
  · intro hinf
    rcases List.infix_iff_prefix_suffix.mp hinf with ⟨t', hp, hs⟩
    rcases hs with ⟨u, hu⟩
    rcases List.map_eq_append_iff.mp hu.symm with ⟨s₁, s₂, hsplit, _, hm2⟩
    refine ⟨s₂, ⟨s₁, hsplit.symm⟩, ?_⟩
    exact (likeMatch_literal frag hw s₂).mpr (by rw [hm2]; exact hp)

/-! ### Update semantics -/

/-- The update loop never touches the primary key or the creation stamp. -/
theorem applyBookUpdate_id (u : BookUpdate) (b : BookRec) :
    (applyBookUpdate u b).id = b.id ∧ (applyBookUpdate u b).created_at = b.created_at :=
  ⟨rfl, rfl⟩

/-- In the store left by a committed update, looking the row up again by
primary key yields the updated record: the write is persisted. -/
theorem get_book_after_update (db : DB) (bid : Int) (u : BookUpdate) (b : BookRec)
    (hb : get_book db bid = some b) :
    get_book { db with
        books := db.books.map fun x => if x.id == bid then applyBookUpdate u x else x } bid =
      some (applyBookUpdate u b) := by
  simp only [get_book] at hb ⊢
  have hid : (b.id == bid) = true :=
    @List.find?_some BookRec (fun x => x.id == bid) b db.books hb
  rw [List.find?_map]
  have hco : ((fun x : BookRec => x.id == bid) ∘
      (fun x : BookRec => if x.id == bid then applyBookUpdate u x else x)) =
      (fun x : BookRec => x.id == bid) := by
    funext x
    by_cases h : x.id = bid <;> simp [h, applyBookUpdate]
  rw [hco, hb, Option.map_some']
  rw [if_pos hid]

/-- Counterexample to C1 as stated: the claim promises that every partial
input on an existing id is persisted and returned, but `db.commit()`
enforces the table constraints on UPDATE.  On the sample store, setting
book 2's `isbn` to the ISBN stored for book 1 hits the unique index and
raises the integrity error instead of persisting, and an explicit null
`title` hits the `NOT NULL` constraint. -/
theorem update_book_duplicate_isbn_counterexample :
    update_book libDB 2
      { title := none, author_id := none, description := none, year := none,
        isbn := some (some "9781234567890") } =
      Except.error CrudError.uniquenessViolation ∧
    update_book libDB 2
      { title := some none, author_id := none, description := none, year := none,
        isbn := none } =
      Except.error CrudError.notNullViolation :=
  ⟨rfl, rfl⟩

/-- C1 (amended): for every stored book and every partial update payload
that passes the commit-time constraints — no explicit null on the
non-nullable `title`/`author_id` columns and no `isbn` value held by
another stored row — `update_book` replaces exactly the fields present in
the payload, leaves every other stored field of that book unchanged (in
particular an empty payload changes nothing at all, and a payload carrying
only `year` changes only `year`), and the updated record is both persisted
and returned; payloads violating the constraints raise an integrity error
and persist nothing. -/
theorem update_book_partial_update_semantics
    (db : DB) (bid : Int) (u : BookUpdate) (b : BookRec)
    (hb : get_book db bid = some b)
    (hti : u.title ≠ some none)
    (hai : u.author_id ≠ some none)
    (hisbn : ∀ s, u.isbn = some (some s) → ∀ x ∈ db.books, x.id ≠ bid → x.isbn ≠ some s) :
    (∃ db2, update_book db bid u = Except.ok (some (applyBookUpdate u b), db2) ∧
      get_book db2 bid = some (applyBookUpdate u b)) ∧
    (applyBookUpdate u b).id = b.id ∧
    (applyBookUpdate u b).created_at = b.created_at ∧
    (u.title = none → (applyBookUpdate u b).title = b.title) ∧
    (u.author_id = none → (applyBookUpdate u b).author_id = b.author_id) ∧
    (u.description = none → (applyBookUpdate u b).description = b.description) ∧
    (u.year = none → (applyBookUpdate u b).year = b.year) ∧
    (u.isbn = none → (applyBookUpdate u b).isbn = b.isbn) ∧
    (∀ t, u.title = some (some t) → (applyBookUpdate u b).title = t) ∧
    (∀ a, u.author_id = some (some a) → (applyBookUpdate u b).author_id = a) ∧
    (∀ d, u.description = some d → (applyBookUpdate u b).description = d) ∧
    (∀ y, u.year = some y → (applyBookUpdate u b).year = y) ∧
    (∀ i, u.isbn = some i → (applyBookUpdate u b).isbn = i) ∧
    (u = emptyBookUpdate → update_book db bid u = Except.ok (some b, db)) ∧
    (∀ y, u = yearOnlyUpdate y → applyBookUpdate u b = { b with year := y }) := by
  have hguard : ¬ (u.title = some none ∨ u.author_id = some none) := by
    rintro (h | h)
    · exact hti h
    · exact hai h
  have hdup : dupIsbnOnUpdate db bid u = false := by
    unfold dupIsbnOnUpdate
    cases hi : u.isbn with
    | none => rfl
    | some o =>
      cases o with
      | none => rfl
      | some s =>
        rw [List.any_eq_false]
        intro x hx hc
        rw [Bool.and_eq_true, Bool.not_eq_true', beq_eq_false_iff_ne] at hc
        exact hisbn s hi x hx hc.1 (by simpa using hc.2)
  have hmain : update_book db bid u =
      Except.ok (some (applyBookUpdate u b),
        { db with
          books := db.books.map fun x => if x.id == bid then applyBookUpdate u x else x }) := by
    simp only [update_book, hb]
    rw [if_neg hguard]
    simp [hdup]
  refine ⟨⟨_, hmain, get_book_after_update db bid u b hb⟩, rfl, rfl,
    ?_, ?_, ?_, ?_, ?_, ?_, ?_, ?_, ?_, ?_, ?_, ?_⟩
  · intro h; simp [applyBookUpdate, h]
  · intro h; simp [applyBookUpdate, h]
  · intro h; simp [applyBookUpdate, h]
  · intro h; simp [applyBookUpdate, h]
  · intro h; simp [applyBookUpdate, h]
  · intro t h; simp [applyBookUpdate, h]
  · intro a h; simp [applyBookUpdate, h]
  · intro d h; simp [applyBookUpdate, h]
  · intro y h; simp [applyBookUpdate, h]
  · intro i h; simp [applyBookUpdate, h]
  · intro h
    subst h
    have hall : ∀ x : BookRec, applyBookUpdate emptyBookUpdate x = x := by
      intro x; simp [applyBookUpdate, emptyBookUpdate]
    rw [hmain, hall b]
    have hmap : (db.books.map fun x =>
        if x.id == bid then applyBookUpdate emptyBookUpdate x else x) = db.books := by
      simp [hall]
    rw [hmap]
  · intro y h
    subst h
    simp [applyBookUpdate, yearOnlyUpdate]

/-- Witness for C1 (amended): on the sample store, updating book 1 with a
payload carrying only `year := 1870` passes the constraints, returns and
persists the record with the new year, and the empty payload is a full
no-op. -/
theorem update_book_partial_update_semantics_witness :
    (∃ db2, update_book libDB 1 (yearOnlyUpdate (some 1870)) =
        Except.ok (some { warAndPeace with year := some 1870 }, db2) ∧
      get_book db2 1 = some { warAndPeace with year := some 1870 }) ∧
    update_book libDB 1 emptyBookUpdate = Except.ok (some warAndPeace, libDB) := by
  have h := update_book_partial_update_semantics libDB 1 (yearOnlyUpdate (some 1870))
    warAndPeace (by decide) (by decide) (by decide)
    (fun s hs => by simp [yearOnlyUpdate] at hs)
  have he := update_book_partial_update_semantics libDB 1 emptyBookUpdate
    warAndPeace (by decide) (by decide) (by decide)
    (fun s hs => by simp [emptyBookUpdate] at hs)
  have hval : applyBookUpdate (yearOnlyUpdate (some 1870)) warAndPeace =
      { warAndPeace with year := some 1870 } := by decide
  constructor
  · obtain ⟨db2, h1, h2⟩ := h.1
    rw [hval] at h1 h2
    exact ⟨db2, h1, h2⟩
  · exact he.2.2.2.2.2.2.2.2.2.2.2.2.2.1 rfl

/-- C5: `update_book` on an id with no matching record returns the absent
sentinel and leaves the store completely unchanged, before any write or
constraint check. -/
theorem update_book_absent_is_noop (db : DB) (bid : Int) (u : BookUpdate)
    (h : get_book db bid = none) :
    update_book db bid u = Except.ok (none, db) := by
  simp [update_book, h]

/-- Witness for C5: updating a missing id on the empty store and on the
sample store returns the sentinel and writes nothing. -/
theorem update_book_absent_is_noop_witness :
    update_book emptyDB 7 (yearOnlyUpdate (some 1870)) = Except.ok (none, emptyDB) ∧
    update_book libDB 9 emptyBookUpdate = Except.ok (none, libDB) :=
  ⟨update_book_absent_is_noop emptyDB 7 _ (by decide),
   update_book_absent_is_noop libDB 9 _ (by decide)⟩

/-! ### Delete semantics -/

/-- C4: `delete_book` returns `false` and performs no write when no book
with the given id exists; otherwise it removes that book, returns `true`,
keeps every book with a different id, and a subsequent `get_book` on the
same id yields the absent sentinel. -/
theorem delete_book_semantics (db : DB) (bid : Int) :
    (get_book db bid = none → delete_book db bid = (false, db)) ∧
    (db.Wf → ∀ b, get_book db bid = some b →
      (delete_book db bid).1 = true ∧
      get_book (delete_book db bid).2 bid = none ∧
      b ∉ (delete_book db bid).2.books ∧
      (∀ x ∈ db.books, x.id ≠ bid → x ∈ (delete_book db bid).2.books)) := by
  constructor
  · intro h; simp [delete_book, h]
  · intro hwf b hb
    have hfst : (delete_book db bid).1 = true := by simp [delete_book, hb]
    have hsnd : (delete_book db bid).2 =
        { db with books := db.books.eraseP (fun x => x.id == bid) } := by
      simp [delete_book, hb]
    simp only [get_book] at hb
    have hmem : b ∈ db.books := List.mem_of_find?_eq_some hb
    have hpb : (b.id == bid) = true :=
      @List.find?_some BookRec (fun x => x.id == bid) b db.books hb
    have hbid : b.id = bid := by simpa using hpb
    obtain ⟨a', l₁, l₂, hl₁, hpa, hsplit, herase⟩ :=
      @List.exists_of_eraseP BookRec (fun x => x.id == bid) db.books b hmem hpb
    have haid : a'.id = bid := by simpa using hpa
    have hnodup : ((l₁ ++ a' :: l₂).map BookRec.id).Nodup := by
      rw [← hsplit]; exact hwf.1
    have hout : a'.id ∉ l₂.map BookRec.id := by
      rw [List.map_append, List.map_cons] at hnodup
      exact (List.nodup_cons.mp (List.nodup_append.mp hnodup).2.1).1
    have hnone : ∀ x ∈ db.books.eraseP (fun x => x.id == bid), ¬ (x.id == bid) = true := by
      intro x hx hpx
      rw [herase] at hx
      rcases List.mem_append.mp hx with h1 | h2
      · exact hl₁ x h1 hpx
      · have hxid : x.id = bid := by simpa using hpx
        exact hout (by rw [haid, ← hxid]; exact List.mem_map_of_mem _ h2)
    refine ⟨hfst, ?_, ?_, ?_⟩
    · rw [hsnd]
      simp only [get_book]
      exact List.find?_eq_none.mpr hnone
    · rw [hsnd]
      intro hbmem
      exact hnone b hbmem hpb
    · intro x hx hxid
      rw [hsnd]
      show x ∈ db.books.eraseP (fun x => x.id == bid)
      rw [herase]
      rw [hsplit] at hx
      rcases List.mem_append.mp hx with h1 | h2
      · exact List.mem_append_left _ h1
      · rcases List.mem_cons.mp h2 with h3 | h4
        · exact absurd (h3 ▸ haid) hxid
        · exact List.mem_append_right _ h4

/-- Witness for C4: on the sample store, deleting book 2 succeeds and the
row is gone afterwards, book 1 survives, and deleting a missing id is a
no-op returning `false`. -/
theorem delete_book_semantics_witness :
    (delete_book libDB 2).1 = true ∧
    get_book (delete_book libDB 2).2 2 = none ∧
    warAndPeace ∈ (delete_book libDB 2).2.books ∧
    delete_book libDB 9 = (false, libDB) := by
  have h := (delete_book_semantics libDB 2).2 (by decide) civilWar (by decide)
  have h0 := (delete_book_semantics libDB 9).1 (by decide)
  exact ⟨h.1, h.2.1, h.2.2.2 warAndPeace (by decide) (by decide), h0⟩

/-! ### Create semantics -/

/-- C2: creating a book whose non-null `isbn` equals a stored one fails
with the uniqueness violation; any successful creation preserves the
invariant that non-null `isbn` values are pairwise distinct; and two
consecutive creations with null `isbn` both succeed. -/
theorem create_book_isbn_uniqueness (db : DB) (inp : BookCreate) :
    (∀ s, inp.isbn = some s → (∃ b ∈ db.books, b.isbn = some s) →
      create_book db inp = Except.error CrudError.uniquenessViolation) ∧
    (IsbnUnique db → ∀ r db2, create_book db inp = Except.ok (r, db2) → IsbnUnique db2) ∧
    (inp.isbn = none →
      create_book db inp = Except.ok (insertBook db inp) ∧
      ∀ inp2 : BookCreate, inp2.isbn = none →
        create_book (insertBook db inp).2 inp2 =
          Except.ok (insertBook (insertBook db inp).2 inp2)) := by
  refine ⟨?_, ?_, ?_⟩
  · rintro s hs ⟨b, hbmem, hbisbn⟩
    have hany : db.books.any (fun b => b.isbn == some s) = true :=
      List.any_eq_true.mpr ⟨b, hbmem, by simp [hbisbn]⟩
    simp [create_book, hs, hany]
  · intro hu r db2 hok
    have hbooks : db2.books = db.books ++ [(insertBook db inp).1] ∧
        (insertBook db inp).1.isbn = inp.isbn ∧
        (inp.isbn = none ∨ ∀ b ∈ db.books, b.isbn ≠ inp.isbn) := by
      cases hisbn : inp.isbn with
      | none =>
        rw [create_book, hisbn] at hok
        cases hok
        exact ⟨rfl, by simp [insertBook, hisbn], Or.inl rfl⟩
      | some s =>
        simp only [create_book, hisbn] at hok
        by_cases hany : db.books.any (fun b => b.isbn == some s) = true
        · rw [if_pos hany] at hok; cases hok
        · rw [if_neg hany] at hok
          cases hok
          refine ⟨rfl, by simp [insertBook, hisbn], Or.inr ?_⟩
          intro b hb hbeq
          exact hany (List.any_eq_true.mpr ⟨b, hb, by simp [hbeq, hisbn]⟩)
    obtain ⟨hb2, hnew, hfresh⟩ := hbooks
    unfold IsbnUnique
    rw [hb2]
    rw [List.pairwise_append]
    refine ⟨hu, List.pairwise_singleton _ _, ?_⟩
    intro a ha x hx s' has'
    rcases List.mem_singleton.mp hx with rfl
    rw [hnew]
    rcases hfresh with hnone | hall
    · rw [hnone]; exact fun h => Option.noConfusion h
    · intro heq
      exact hall a ha (by rw [heq, has'])
  · intro hnone
    refine ⟨by simp [create_book, hnone], ?_⟩
    intro inp2 hnone2
    simp [create_book, hnone2]

/-- Witness for C2: on the sample store, creating a book that reuses the
stored ISBN of book 1 fails with the uniqueness violation, the invariant
holds for the sample store, and two null-ISBN creations both succeed. -/
theorem create_book_isbn_uniqueness_witness :
    create_book libDB
      { title := "Anna Karenina", author_id := 1, description := none,
        year := none, isbn := some "9781234567890" } =
      Except.error CrudError.uniquenessViolation ∧
    create_book libDB
      { title := "Anna Karenina", author_id := 1, description := none,
        year := none, isbn := none } =
      Except.ok (insertBook libDB
        { title := "Anna Karenina", author_id := 1, description := none,
          year := none, isbn := none }) := by
  constructor
  · exact (create_book_isbn_uniqueness libDB _).1 "9781234567890" rfl
      ⟨warAndPeace, by decide, by decide⟩
  · exact ((create_book_isbn_uniqueness libDB _).2.2 rfl).1

/-- C8: under the store invariant, every successful creation returns a
record whose `id` is fresh (hence unique among stored records) and whose
`created_at` is the server clock, the invariant is preserved, and the
assigned `id` and `created_at` do not depend on the caller's payload (the
create payloads have no such fields to supply). -/
theorem create_assigns_id_and_created_at (db : DB) (hwf : db.Wf) :
    (∀ inp r db2, create_book db inp = Except.ok (r, db2) →
      r.id ∉ db.books.map BookRec.id ∧ r.created_at = db.now ∧ db2.Wf) ∧
    (∀ inp : AuthorCreate,
      (create_author db inp).1.id ∉ db.authors.map AuthorRec.id ∧
      (create_author db inp).1.created_at = db.now ∧ (create_author db inp).2.Wf) ∧
    (∀ i1 i2 : BookCreate,
      (insertBook db i1).1.id = (insertBook db i2).1.id ∧
      (insertBook db i1).1.created_at = (insertBook db i2).1.created_at) ∧
    (∀ a1 a2 : AuthorCreate,
      (create_author db a1).1.id = (create_author db a2).1.id ∧
      (create_author db a1).1.created_at = (create_author db a2).1.created_at) := by
  obtain ⟨hbn, hbb, han, hab⟩ := hwf
  have hbookfresh : db.nextBookId ∉ db.books.map BookRec.id := by
    intro hmem
    obtain ⟨b, hb, hbid⟩ := List.mem_map.mp hmem
    exact absurd hbid (by have := hbb b hb; omega)
  have hauthorfresh : db.nextAuthorId ∉ db.authors.map AuthorRec.id := by
    intro hmem
    obtain ⟨a, ha, haid⟩ := List.mem_map.mp hmem
    exact absurd haid (by have := hab a ha; omega)
  refine ⟨?_, ?_, fun i1 i2 => ⟨rfl, rfl⟩, fun a1 a2 => ⟨rfl, rfl⟩⟩
  · intro inp r db2 hok
    have hins : (r, db2) = insertBook db inp := by
      cases hisbn : inp.isbn with
      | none => rw [create_book, hisbn] at hok; cases hok; rfl
      | some s =>
        simp only [create_book, hisbn] at hok
        by_cases hany : db.books.any (fun b => b.isbn == some s) = true
        · rw [if_pos hany] at hok; cases hok
        · rw [if_neg hany] at hok; cases hok; rfl
    have hr : r = (insertBook db inp).1 := by rw [← hins]
    have hdb2 : db2 = (insertBook db inp).2 := by rw [← hins]
    subst hr hdb2
    refine ⟨hbookfresh, rfl, ?_, ?_, han, ?_⟩
    · show ((db.books ++ [(insertBook db inp).1]).map BookRec.id).Nodup
      rw [List.map_append, List.map_cons, List.map_nil, List.nodup_append]
      exact ⟨hbn, List.nodup_singleton _, by
        intro x hx
        simp only [List.mem_singleton]
        intro hxeq
        apply hbookfresh
        have hxid : x = db.nextBookId := hxeq
        exact hxid ▸ hx⟩
    · intro b hb
      rcases List.mem_append.mp hb with h1 | h2
      · have := hbb b h1
        show b.id < db.nextBookId + 1
        omega
      · rcases List.mem_singleton.mp h2 with rfl
        show db.nextBookId < db.nextBookId + 1
        omega
    · intro a ha
      exact hab a ha
  · intro inp
    refine ⟨hauthorfresh, rfl, hbn, hbb, ?_, ?_⟩
    · show ((db.authors ++ [(create_author db inp).1]).map AuthorRec.id).Nodup
      rw [List.map_append, List.map_cons, List.map_nil, List.nodup_append]
      exact ⟨han, List.nodup_singleton _, by
        intro x hx
        simp only [List.mem_singleton]
        intro hxeq
        apply hauthorfresh
        have hxid : x = db.nextAuthorId := hxeq
        exact hxid ▸ hx⟩
    · intro a ha
      rcases List.mem_append.mp ha with h1 | h2
      · have := hab a h1
        show a.id < db.nextAuthorId + 1
        omega
      · rcases List.mem_singleton.mp h2 with rfl
        show db.nextAuthorId < db.nextAuthorId + 1
        omega

/-- Witness for C8: on the well-formed sample store, creating an author
and a book yields the fresh ids 2 and 5 and `created_at` stamped by the
store clock. -/
theorem create_assigns_id_and_created_at_witness :
    (create_author libDB { name := "Chekhov", bio := none, birth_date := none }).1.id
        ∉ libDB.authors.map AuthorRec.id ∧
    (create_author libDB { name := "Chekhov", bio := none, birth_date := none }).1.created_at
        = libDB.now := by
  have h := (create_assigns_id_and_created_at libDB (by decide)).2.1
    { name := "Chekhov", bio := none, birth_date := none }
  exact ⟨h.1, h.2.1⟩

/-! ### Pagination and author-books semantics -/

/-- C9: the listing operations return at most `limit` records, taken after
skipping the first `skip` records in storage order; the defaulted calls
use `skip = 0`, `limit = 100`; and no upper bound is imposed on `limit` —
a limit at least the table size returns the whole remaining table. -/
theorem pagination_skip_limit (db : DB) (skip limit : Nat) :
    get_books db skip limit = (db.books.drop skip).take limit ∧
    (get_books db skip limit).length ≤ limit ∧
    get_authors db skip limit = (db.authors.drop skip).take limit ∧
    (get_authors db skip limit).length ≤ limit ∧
    get_books_default db = get_books db 0 100 ∧
    get_authors_default db = get_authors db 0 100 ∧
    (db.books.length ≤ limit → get_books db skip limit = db.books.drop skip) ∧
    (db.authors.length ≤ limit → get_authors db skip limit = db.authors.drop skip) := by
  refine ⟨rfl, List.length_take_le _ _, rfl, List.length_take_le _ _, rfl, rfl, ?_, ?_⟩
  · intro h
    refine List.take_of_length_le ?_
    rw [List.length_drop]
    omega
  · intro h
    refine List.take_of_length_le ?_
    rw [List.length_drop]
    omega

/-- Witness for C9: on the sample store, a page of size 2 after skipping 1
and an unbounded page. -/
theorem pagination_skip_limit_witness :
    get_books libDB 1 2 = [civilWar, peaceBook] ∧
    get_books libDB 0 1000 = libDB.books := by
  have h := pagination_skip_limit libDB 1 2
  have h2 := pagination_skip_limit libDB 0 1000
  constructor
  · rw [h.1]; decide
  · rw [h2.2.2.2.2.2.2.1 (by decide)]; decide

/-- C7: `get_author_books` returns exactly the books whose `author_id`
references the author when the author exists, and the empty list when the
author does not exist; an existing author owning no books also yields the
empty list, indistinguishable from the nonexistent-author case. -/
theorem get_author_books_semantics (db : DB) (aid : Int) :
    ((∃ a ∈ db.authors, a.id = aid) →
      get_author_books db aid = db.books.filter (fun b => b.author_id == aid)) ∧
    ((∀ a ∈ db.authors, a.id ≠ aid) → get_author_books db aid = []) ∧
    ((∃ a ∈ db.authors, a.id = aid) → (∀ b ∈ db.books, b.author_id ≠ aid) →
      get_author_books db aid = []) := by
  have hfind : (∃ a ∈ db.authors, a.id = aid) →
      ∃ a', db.authors.find? (fun a => a.id == aid) = some a' ∧ a'.id = aid := by
    rintro ⟨a, ha, haid⟩
    have hsome : (db.authors.find? (fun a => a.id == aid)).isSome :=
      List.find?_isSome.mpr ⟨a, ha, by simp [haid]⟩
    obtain ⟨a', ha'⟩ := Option.isSome_iff_exists.mp hsome
    refine ⟨a', ha', ?_⟩
    have := @List.find?_some AuthorRec (fun x => x.id == aid) a' db.authors ha'
    simpa using this
  refine ⟨?_, ?_, ?_⟩
  · intro hex
    obtain ⟨a', hfd, haid⟩ := hfind hex
    simp only [get_author_books, hfd, haid]
  · intro hall
    have hnone : db.authors.find? (fun a => a.id == aid) = none :=
      List.find?_eq_none.mpr (fun a ha => by simpa using hall a ha)
    rw [get_author_books, hnone]
  · intro hex hnobooks
    obtain ⟨a', hfd, haid⟩ := hfind hex
    simp only [get_author_books, hfd, haid]
    exact List.filter_eq_nil_iff.mpr (fun b hb => by simpa using hnobooks b hb)

/-- Witness for C7: on the sample store, author 1 owns all four books and
the missing author 2 yields the empty list. -/
theorem get_author_books_semantics_witness :
    get_author_books libDB 1 = [warAndPeace, civilWar, peaceBook, catBook] ∧
    get_author_books libDB 2 = [] := by
  have h := get_author_books_semantics libDB 1
  have h2 := get_author_books_semantics libDB 2
  constructor
  · rw [h.1 ⟨tolstoy, by decide, by decide⟩]; decide
  · exact h2.2.1 (by decide)

/-! ### Search semantics -/

/-- Counterexample to C3 as stated: the claim quantifies over every
fragment string, but `search_books_by_title` builds a LIKE pattern, so the
fragment `"%"` matches the stored title `"peace"` even though `"peace"`
does not contain `"%"` as a (case-insensitive) substring. -/
theorem search_books_by_title_wildcard_counterexample :
    peaceBook ∈ search_books_by_title libDB "%" ∧ ¬ ciSubstring "%" peaceBook.title := by
  constructor
  · have hm : likeMatch ('%' :: "%".data ++ ['%']) peaceBook.title.data = true := by decide
    exact List.mem_filter.mpr ⟨by decide, hm⟩
  · decide

/-- C3 (amended): for every fragment containing no LIKE wildcard (`%` or
`_`), `search_books_by_title` returns exactly the stored books whose title
contains the fragment as a case-insensitive substring, and the empty list
(not an error) when no book matches. -/
theorem search_books_by_title_ci_substring (db : DB) (frag : String)
    (hw : NoWildcard frag.data) :
    (∀ b, b ∈ search_books_by_title db frag ↔ b ∈ db.books ∧ ciSubstring frag b.title) ∧
    ((∀ b ∈ db.books, ¬ ciSubstring frag b.title) → search_books_by_title db frag = []) := by
  have hiff : ∀ b : BookRec,
      likeMatch ('%' :: frag.data ++ ['%']) b.title.data = true ↔ ciSubstring frag b.title :=
    fun b => likeMatch_wrap frag.data hw b.title.data
  constructor
  · intro b
    rw [search_books_by_title, List.mem_filter, hiff b]
  · intro hnone
    rw [search_books_by_title]
    exact List.filter_eq_nil_iff.mpr (fun b hb hm => hnone b hb ((hiff b).mp hm))

/-- Witness for C3 (amended): the fragment `"war"` matches the stored
titles `"War and Peace"` and `"civil war"` but not `"peace"`. -/
theorem search_books_by_title_ci_substring_witness :
    warAndPeace ∈ search_books_by_title libDB "war" ∧
    civilWar ∈ search_books_by_title libDB "war" ∧
    peaceBook ∉ search_books_by_title libDB "war" := by
  have h := search_books_by_title_ci_substring libDB "war" (by decide)
  refine ⟨(h.1 warAndPeace).mpr ⟨by decide, by decide⟩,
    (h.1 civilWar).mpr ⟨by decide, by decide⟩, ?_⟩
  intro hmem
  exact absurd ((h.1 peaceBook).mp hmem).2 (by decide)

/-- C10: the fragment is interpolated into a LIKE pattern, so `%` and `_`
act as wildcards rather than literal characters: the empty fragment
matches every stored book, and a fragment with a `_` wildcard matches a
title that does not literally contain the fragment. -/
theorem search_books_by_title_like_interpolation :
    (∀ db : DB, search_books_by_title db "" = db.books) ∧
    (catBook ∈ search_books_by_title libDB "c_t" ∧ ¬ ciSubstring "c_t" catBook.title) ∧
    (peaceBook ∈ search_books_by_title libDB "p%ce" ∧ ¬ ciSubstring "p%ce" peaceBook.title) := by
  refine ⟨?_, ⟨?_, by decide⟩, ⟨?_, by decide⟩⟩
  · intro db
    rw [search_books_by_title]
    refine List.filter_eq_self.mpr (fun b _ => ?_)
    have hpat : '%' :: "".data ++ ['%'] = ['%', '%'] := rfl
    rw [hpat, likeMatch_pct]
    exact (likeStar_eq_true_iff _ _).mpr
      ⟨b.title.data, List.suffix_refl _, likeMatch_pct_nil _⟩
  · exact List.mem_filter.mpr ⟨by decide, by decide⟩
  · exact List.mem_filter.mpr ⟨by decide, by decide⟩

/-! ### Validation-schema semantics -/

/-- Success characterization of `AuthorCreate` validation: it succeeds
exactly when `name` is present and a string (of any length) and each
optional field is absent, null, or well-typed. -/
theorem validateAuthorCreate_isSome (r : RawAuthorInput) :
    (validateAuthorCreate r).isSome ↔
      (∃ s, r.name = some (JVal.jstr s)) ∧
      (decodeOpt decodeStr r.bio).isSome ∧ (decodeOpt decodeDate r.birth_date).isSome := by
  rcases r with ⟨na, bi, bd⟩
  simp only [validateAuthorCreate]
  rcases na with _ | v
  · simp
  · cases v with
    | jnull => simp
    | jint n => simp
    | jbool b => simp
    | jstr s =>
      cases hbi : decodeOpt decodeStr bi with
      | none => simp [hbi]
      | some o1 =>
        cases hbd : decodeOpt decodeDate bd with
        | none => simp [hbi, hbd]
        | some o2 => simp [hbi, hbd]

/-- Success characterization of `BookCreate` validation: it succeeds
exactly when `title` is present and a string (of any length), `author_id`
is present with a value `int` validation accepts (an integer or a numeric
string), and each optional field is absent, null, or well-typed. -/
theorem validateBookCreate_isSome (r : RawBookInput) :
    (validateBookCreate r).isSome ↔
      (∃ s, r.title = some (JVal.jstr s)) ∧
      (∃ v, r.author_id = some v ∧ (decodeInt v).isSome) ∧
      (decodeOpt decodeStr r.description).isSome ∧ (decodeOpt decodeInt r.year).isSome ∧
      (decodeOpt decodeStr r.isbn).isSome := by
  rcases r with ⟨ti, ai, de, ye, isb⟩
  simp only [validateBookCreate]
  rcases ti with _ | v
  · simp
  · cases v with
    | jnull => simp
    | jint n => simp
    | jbool b => simp
    | jstr s =>
      rcases ai with _ | w
      · simp
      · cases hdec : decodeInt w with
        | none => simp [hdec]
        | some aid =>
          cases hde : decodeOpt decodeStr de with
          | none => simp [hdec, hde]
          | some o1 =>
            cases hye : decodeOpt decodeInt ye with
            | none => simp [hdec, hde, hye]
            | some o2 =>
              cases hisb : decodeOpt decodeStr isb with
              | none => simp [hdec, hde, hye, hisb]
              | some o3 => simp [hdec, hde, hye, hisb]

/-- Counterexample to C6 as stated: the schemas declare plain `str` with
no length constraint, so construction succeeds with an empty `name` /
`title`; and `author_id` is not restricted to values of integer type —
pydantic's lax `int` validation coerces the numeric string `"5"`, so a
payload whose `author_id` is a string also validates. -/
theorem schema_validation_empty_string_counterexample :
    validateAuthorCreate { name := some (JVal.jstr ""), bio := none, birth_date := none } =
      some { name := "", bio := none, birth_date := none } ∧
    validateBookCreate
        { title := some (JVal.jstr ""), author_id := some (JVal.jint 1),
          description := none, year := none, isbn := none } =
      some { title := "", author_id := 1, description := none, year := none, isbn := none } ∧
    validateBookCreate
        { title := some (JVal.jstr "x"), author_id := some (JVal.jstr "5"),
          description := none, year := none, isbn := none } =
      some { title := "x", author_id := 5, description := none, year := none, isbn := none } :=
  ⟨rfl, rfl, rfl⟩

/-- C6 (amended): `AuthorCreate` construction succeeds exactly when `name`
is present and a string (possibly empty); `BookCreate` exactly when
`title` is present and a string (possibly empty) and `author_id` is
present with a value `int` validation accepts — an integer, or an
integer-valued numeric string coerced by pydantic's lax mode (optional
fields absent, null or well-typed).  The optional fields may be omitted,
and construction fails whenever a required field is missing, when
`name`/`title` is not a string, or when `author_id` carries a value `int`
validation rejects (null, a boolean, or a non-numeric string). -/
theorem schema_validation_requirements (ra : RawAuthorInput) (rb : RawBookInput) :
    ((validateAuthorCreate ra).isSome ↔
      (∃ s, ra.name = some (JVal.jstr s)) ∧
      (decodeOpt decodeStr ra.bio).isSome ∧ (decodeOpt decodeDate ra.birth_date).isSome) ∧
    ((validateBookCreate rb).isSome ↔
      (∃ s, rb.title = some (JVal.jstr s)) ∧
      (∃ v, rb.author_id = some v ∧ (decodeInt v).isSome) ∧
      (decodeOpt decodeStr rb.description).isSome ∧ (decodeOpt decodeInt rb.year).isSome ∧
      (decodeOpt decodeStr rb.isbn).isSome) ∧
    (∀ s, validateAuthorCreate { name := some (JVal.jstr s), bio := none, birth_date := none } =
      some { name := s, bio := none, birth_date := none }) ∧
    (∀ s n, validateBookCreate
        { title := some (JVal.jstr s), author_id := some (JVal.jint n),
          description := none, year := none, isbn := none } =
      some { title := s, author_id := n, description := none, year := none, isbn := none }) ∧
    (∀ s t n, parseIntString t = some n → validateBookCreate
        { title := some (JVal.jstr s), author_id := some (JVal.jstr t),
          description := none, year := none, isbn := none } =
      some { title := s, author_id := n, description := none, year := none, isbn := none }) ∧
    (ra.name = none → validateAuthorCreate ra = none) ∧
    (rb.title = none → validateBookCreate rb = none) ∧
    (rb.author_id = none → validateBookCreate rb = none) ∧
    (∀ v, ra.name = some v → (∀ s, v ≠ JVal.jstr s) → validateAuthorCreate ra = none) ∧
    (∀ v, rb.title = some v → (∀ s, v ≠ JVal.jstr s) → validateBookCreate rb = none) ∧
    (∀ v, rb.author_id = some v → decodeInt v = none → validateBookCreate rb = none) ∧
    (decodeInt JVal.jnull = none ∧ ∀ b, decodeInt (JVal.jbool b) = none) := by
  refine ⟨validateAuthorCreate_isSome ra, validateBookCreate_isSome rb,
    fun s => rfl, fun s n => rfl, ?_, ?_, ?_, ?_, ?_, ?_, ?_, ⟨rfl, fun b => rfl⟩⟩
  · intro s t n h
    simp [validateBookCreate, decodeInt, h, decodeOpt]
  · intro h
    rcases ra with ⟨na, bi, bd⟩
    cases h
    rfl
  · intro h
    rcases rb with ⟨ti, ai, de, ye, isb⟩
    cases h
    rfl
  · intro h
    rcases rb with ⟨ti, ai, de, ye, isb⟩
    cases h
    rcases ti with _ | v
    · rfl
    · cases v <;> rfl
  · intro v hv hne
    rcases ra with ⟨na, bi, bd⟩
    cases hv
    cases v with
    | jstr s => exact absurd rfl (hne s)
    | jnull => rfl
    | jint n => rfl
    | jbool b => rfl
  · intro v hv hne
    rcases rb with ⟨ti, ai, de, ye, isb⟩
    cases hv
    cases v with
    | jstr s => exact absurd rfl (hne s)
    | jnull => rfl
    | jint n => rfl
    | jbool b => rfl
  · intro v hv hdec
    rcases rb with ⟨ti, ai, de, ye, isb⟩
    cases hv
    rcases ti with _ | w
    · rfl
    · cases w with
      | jstr s => simp [validateBookCreate, hdec]
      | jnull => rfl
      | jint n => rfl
      | jbool b => rfl

/-- Witness for C6 (amended): a well-typed author payload validates, a
book payload missing `title` is rejected, an integer-valued `name` is
rejected, the numeric string `"5"` is coerced at `author_id`, and a null
`author_id` is rejected. -/
theorem schema_validation_requirements_witness :
    (validateAuthorCreate
      { name := some (JVal.jstr "Tolstoy"), bio := none, birth_date := none }).isSome ∧
    validateBookCreate
      { title := none, author_id := some (JVal.jint 1), description := none,
        year := none, isbn := none } = none ∧
    validateAuthorCreate
      { name := some (JVal.jint 3), bio := none, birth_date := none } = none ∧
    validateBookCreate
      { title := some (JVal.jstr "x"), author_id := some (JVal.jstr "5"),
        description := none, year := none, isbn := none } =
      some { title := "x", author_id := 5, description := none, year := none, isbn := none } ∧
    validateBookCreate
      { title := some (JVal.jstr "x"), author_id := some JVal.jnull,
        description := none, year := none, isbn := none } = none := by
  have h := schema_validation_requirements
    ⟨some (JVal.jstr "Tolstoy"), none, none⟩
    ⟨none, some (JVal.jint 1), none, none, none⟩
  have h2 := schema_validation_requirements
    ⟨some (JVal.jint 3), none, none⟩
    ⟨some (JVal.jstr "x"), some (JVal.jstr "5"), none, none, none⟩
  have h3 := schema_validation_requirements
    ⟨none, none, none⟩
    ⟨some (JVal.jstr "x"), some JVal.jnull, none, none, none⟩
  refine ⟨h.1.mpr ⟨⟨"Tolstoy", rfl⟩, by decide, by decide⟩,
    h.2.2.2.2.2.2.1 rfl,
    h2.2.2.2.2.2.2.2.2.1 (JVal.jint 3) rfl (fun s hh => JVal.noConfusion hh),
    h2.2.2.2.2.1 "x" "5" 5 (by decide),
    h3.2.2.2.2.2.2.2.2.2.2.1 JVal.jnull rfl rfl⟩
